import Mathlib

/-!
Shallow embedding of the fuzzy entity-resolution engine and read-through TTL
cache of the Ehiring-MCP repository (src/server.py and src/app.py).

Modelling conventions:
* Python floats that carry similarity scores or timestamps are modelled as `ℚ`.
* Upstream HTTP calls are modelled by passing the outcome of the request as an
  explicit `Except`/`Option` argument; each cache-touching function also
  returns a `Bool` recording whether the HTTP request was actually issued.
* The sklearn `TfidfVectorizer`/`cosine_similarity` pair is modelled as an
  abstract scorer `Scorer : String → List String → Option (List ℚ)`;
  `none` models the `except Exception` branch around vectorization.
* Python exceptions that escape a function are modelled with `Except.error`.
-/

namespace Ehiring

/-- A similarity scorer: given a query and a pool of display strings, either
the vector of cosine-similarity scores aligned with the pool (`some`), or
`none` when vectorization raises (degenerate vocabulary etc.). -/
abbrev Scorer := String → List String → Option (List ℚ)

/-- `np.argmax`-style scan carrying (best index, best value) and the current
absolute index; a later element replaces the best only when strictly greater,
so the first occurrence of the maximum wins. -/
def argmaxGoP : ℕ × ℚ → ℕ → List ℚ → ℕ × ℚ
  | (bi, bv), _, [] => (bi, bv)
  | (bi, bv), i, x :: xs =>
    if bv < x then argmaxGoP (i, x) (i + 1) xs else argmaxGoP (bi, bv) (i + 1) xs

/-- Index of the first maximal element of a list (`np.argmax`); 0 on `[]`. -/
def argmaxIdx : List ℚ → ℕ
  | [] => 0
  | x :: xs => (argmaxGoP (0, x) 1 xs).1

/-! ## Data model -/

/-- An opening as projected by `get_base_openings`: `{"id": ..., "name": ...}`. -/
structure Opening where
  id : String
  name : String
deriving Repr, DecidableEq

/-- An opening as it arrives from the upstream `opening/list` endpoint:
`id` and `name` are always present, `status` and `content` are read with
`.get`. (`content` defaults to `''` in the source, folded into `String`.) -/
structure RawOpening where
  id : String
  name : String
  status : Option String
  content : String
deriving Repr, DecidableEq

/-- An entry produced by `get_job_descriptions`. -/
structure JDEntry where
  id : String
  name : String
  job_description : String
  html_content : String
deriving Repr, DecidableEq

/-- A user record from the Account API; fields read with `.get`. -/
structure RawUser where
  username : Option String
  name : String
  title : String
deriving Repr, DecidableEq

/-- The value stored per username by `get_users_info`: `(name, title)`. -/
abbrev UserInfo := String × String

/-- A candidate record from the upstream `candidate/list` endpoint; all
fields are read with `.get`.  `last_update` is the Unix timestamp after the
source's `int(...)` conversion. -/
structure RawCandidate where
  id : Option String
  name : Option String
  stage_name : Option String
  last_update : Int
deriving Repr, DecidableEq

/-- The triple returned by `find_opening_id_by_name`:
`(opening_id, matched_name, score)`. -/
structure ResolutionResult where
  id : Option String
  matchedName : Option String
  score : ℚ
deriving Repr, DecidableEq

/-- One slot of the module-level `_cache` dict: `{'data': ..., 'timestamp': ...}`.
`data` starts as `None` (here `none`) and `timestamp` as 0. -/
structure CacheEntry (α : Type) where
  data : Option α
  timestamp : ℚ
deriving Repr, DecidableEq

/-- The module-level `_cache` dictionary with its three fixed keys. -/
structure Cache where
  openings : CacheEntry (List Opening)
  job_descriptions : CacheEntry (List JDEntry)
  users_info : CacheEntry (List (String × UserInfo))
deriving Repr, DecidableEq

/-- The `_cache` value at process start. -/
def Cache.init : Cache :=
  ⟨⟨none, 0⟩, ⟨none, 0⟩, ⟨none, 0⟩⟩

/-- `CACHE_TTL = 300` (5-minute cache), shared by all kinds. -/
def CACHE_TTL : ℚ := 300

/-- Connectivity errors are carried as plain messages
(`requests.exceptions.RequestException` text). -/
abbrev Err := String

/-! ## Resource fetchers (read-through TTL cache)

Each fetcher takes the outcome the HTTP request *would* have (an explicit
argument standing for the network), the current `time()`, the credential and
the cache, and returns `(result, new cache, request issued?)`.  A raised
Python exception is `Except.error`. -/

/-- The TTL hit test shared by all three fetchers:
`use_cache and _cache[kind]['data'] is not None and now - timestamp < CACHE_TTL`. -/
def cacheHit {α : Type} (useCache : Bool) (entry : CacheEntry α) (now : ℚ) :
    Option α :=
  if useCache then
    match entry.data with
    | some d => if now - entry.timestamp < CACHE_TTL then some d else none
    | none => none
  else none

/-- The projection/filter step of `get_base_openings`: keep openings whose
`status == '10'` and project to `{id, name}`.  A response without an
`openings` key yields `data.get('openings', [])  = []`. -/
def filterActiveOpenings (raw : Option (List RawOpening)) : List Opening :=
  ((raw.getD []).filter (fun o => o.status == some "10")).map
    (fun o => ⟨o.id, o.name⟩)

/-- `get_base_openings(api_key, use_cache)` from src/server.py lines 51-86
(identically src/app.py lines 67-102 up to the exception type). -/
def get_base_openings (fetch : Except Err (Option (List RawOpening)))
    (now : ℚ) (apiKey : String) (cache : Cache) (useCache : Bool) :
    Except Err (List Opening) × Cache × Bool :=
  if apiKey = "" then (.error "BASE_API_KEY chua duoc cau hinh", cache, false)
  else
    match cacheHit useCache cache.openings now with
    | some d => (.ok d, cache, false)
    | none =>
      match fetch with
      | .error e => (.error ("Loi ket noi den Base API: " ++ e), cache, true)
      | .ok raw =>
        let filtered := filterActiveOpenings raw
        let cache' :=
          if useCache then { cache with openings := ⟨some filtered, now⟩ } else cache
        (.ok filtered, cache', true)

/-- Python `str.strip()`: drop leading and trailing whitespace, modelled over
the character list (kernel-reducible counterpart of `String.trim` on the
ASCII whitespace relevant here). -/
def pyStrip (s : String) : String :=
  String.mk
    (((s.data.dropWhile Char.isWhitespace).reverse.dropWhile
      Char.isWhitespace).reverse)

/-- The body-shaping step of `get_job_descriptions`: keep openings with
`status == '10'` whose markup-stripped text has length ≥ 10; note the length
test is on the *unstripped* text while the stored `job_description` is
`text_content.strip()`.  `getText` stands for `BeautifulSoup(...).get_text()`. -/
def shapeJobDescriptions (getText : String → String)
    (openingsRaw : List RawOpening) : List JDEntry :=
  openingsRaw.filterMap (fun o =>
    if o.status == some "10" then
      let text := getText o.content
      if 10 ≤ text.length then
        some ⟨o.id, o.name, pyStrip text, o.content⟩
      else none
    else none)

/-- `get_job_descriptions(api_key, use_cache)` from src/server.py lines 88-133
(identically src/app.py lines 104-149).  A parsed response without an
`openings` key (`fetch = .ok none`) returns `[]` without storing anything. -/
def get_job_descriptions (getText : String → String)
    (fetch : Except Err (Option (List RawOpening)))
    (now : ℚ) (apiKey : String) (cache : Cache) (useCache : Bool) :
    Except Err (List JDEntry) × Cache × Bool :=
  if apiKey = "" then (.error "BASE_API_KEY chua duoc cau hinh", cache, false)
  else
    match cacheHit useCache cache.job_descriptions now with
    | some d => (.ok d, cache, false)
    | none =>
      match fetch with
      | .error e => (.error ("Loi ket noi den Base API: " ++ e), cache, true)
      | .ok none => (.ok [], cache, true)
      | .ok (some openingsRaw) =>
        let results := shapeJobDescriptions getText openingsRaw
        let cache' :=
          if useCache then
            { cache with job_descriptions := ⟨some results, now⟩ }
          else cache
        (.ok results, cache', true)

/-- Outcome of the Account-API users request, as seen from inside the
`try` block of `get_users_info`: either some step raised
(connection error, HTTP error status via `raise_for_status`, or a body that
`.json()` cannot parse), or a parsed JSON body, which carries a valid
`users` list or not (`users_data['users']` missing / not a list). -/
inductive UsersFetch where
  | raised (e : Err)
  | parsed (users : Option (List RawUser))
deriving Repr, DecidableEq

/-- Python dict assignment `m[k] = v` on an insertion-ordered map. -/
def insertAssoc (m : List (String × UserInfo)) (k : String) (v : UserInfo) :
    List (String × UserInfo) :=
  if m.any (fun p => p.1 == k) then
    m.map (fun p => if p.1 == k then (k, v) else p)
  else m ++ [(k, v)]

/-- The map-building loop of `get_users_info`: skip users with a falsy
`username`; force title "CEO" when the name is "Hoang Tran". -/
def buildUsersMap : List RawUser → List (String × UserInfo) →
    List (String × UserInfo)
  | [], acc => acc
  | u :: rest, acc =>
    match u.username with
    | none => buildUsersMap rest acc
    | some uname =>
      if uname = "" then buildUsersMap rest acc
      else
        let title := if u.name = "Hoang Tran" then "CEO" else u.title
        buildUsersMap rest (insertAssoc acc uname (u.name, title))

/-- `get_users_info(use_cache)` from src/server.py lines 158-202 (identically
src/app.py lines 174-218).  The whole fetch-and-store body sits in a
`try: ... except Exception: return {}`, so a raise leaves the cache untouched;
a parsed body — even one without a `users` list — is shaped and stored. -/
def get_users_info (accountApiKey : String) (fetch : UsersFetch) (now : ℚ)
    (cache : Cache) (useCache : Bool) :
    List (String × UserInfo) × Cache × Bool :=
  if accountApiKey = "" then ([], cache, false)
  else
    match cacheHit useCache cache.users_info now with
    | some d => (d, cache, false)
    | none =>
      match fetch with
      | .raised _ => ([], cache, true)
      | .parsed users =>
        let m := buildUsersMap (users.getD []) []
        let cache' :=
          if useCache then { cache with users_info := ⟨some m, now⟩ } else cache
        (m, cache', true)

/-! ## Resolver: opening resolution -/

/-- The post-fetch body of `find_opening_id_by_name` (src/server.py lines
417-452, src/app.py lines 413-448): empty-pool guard, exact match on `id` or
`name`, then TF-IDF/cosine fallback with `np.argmax` and the threshold gate;
any vectorization exception yields `(None, None, 0.0)`.  An out-of-range
`best_idx` would raise `IndexError` inside the same `try`, hence the
`none => ⟨none, none, 0⟩` arm. -/
def resolveOpening (sim : Scorer) (openings : List Opening)
    (queryName : String) (threshold : ℚ) : ResolutionResult :=
  if openings.isEmpty then ⟨none, none, 0⟩
  else
    match openings.find? (fun op => op.id == queryName || op.name == queryName) with
    | some op => ⟨some op.id, some op.name, 1⟩
    | none =>
      let names := openings.map (·.name)
      if names.isEmpty then ⟨none, none, 0⟩
      else
        match sim queryName names with
        | none => ⟨none, none, 0⟩
        | some sims =>
          let bestIdx := argmaxIdx sims
          let best := sims.getD bestIdx 0
          if threshold ≤ best then
            match openings[bestIdx]? with
            | some op => ⟨some op.id, some op.name, best⟩
            | none => ⟨none, none, 0⟩
          else ⟨none, none, best⟩

/-- `find_opening_id_by_name(query_name, api_key, similarity_threshold)`
including its call `get_base_openings(api_key, use_cache=True)` (src/server.py
lines 413-452): an exception raised by the fetch propagates out of the
resolver uncaught. -/
def find_opening_id_by_name (sim : Scorer)
    (fetch : Except Err (Option (List RawOpening))) (now : ℚ) (apiKey : String)
    (cache : Cache) (queryName : String) (threshold : ℚ) :
    Except Err ResolutionResult :=
  match (get_base_openings fetch now apiKey cache true).1 with
  | .error e => .error e
  | .ok openings => .ok (resolveOpening sim openings queryName threshold)

/-! ## Resolver: candidate-within-opening resolution -/

/-- Python truthiness of `c.get('name')`: present and non-empty. -/
def candNameTruthy (c : RawCandidate) : Bool := c.name.getD "" != ""

/-- `candidate.get('stage_name', '')`. -/
def candStage (c : RawCandidate) : String := c.stage_name.getD ""

/-- `find_candidate_by_name_in_opening(candidate_name, opening_id, api_key,
similarity_threshold, filter_stages)` from src/server.py lines 454-521
(identically src/app.py lines 450-528).  The fetch of the candidate list is
wrapped in `try/except` that returns `(None, 0.0)`, as is the vectorization;
`if filter_stages:` treats `None` and `[]` alike (no stage filter). -/
def find_candidate_by_name_in_opening (sim : Scorer)
    (fetch : Except Err (Option (List RawCandidate)))
    (candidateName openingId : String) (threshold : ℚ)
    (filterStages : Option (List String)) : Option String × ℚ :=
  if candidateName = "" ∨ openingId = "" then (none, 0)
  else
    match fetch with
    | .error _ => (none, 0)
    | .ok none => (none, 0)
    | .ok (some cands) =>
      if cands.isEmpty then (none, 0)
      else
        let fs := filterStages.getD []
        let filtered :=
          if fs.isEmpty then cands
          else cands.filter (fun c => candStage c != "" && fs.contains (candStage c))
        if ¬ fs.isEmpty ∧ filtered.isEmpty then (none, 0)
        else
          let names := (filtered.filter candNameTruthy).map (fun c => c.name.getD "")
          if names.isEmpty then (none, 0)
          else
            match filtered.find? (fun c => c.name == some candidateName) with
            | some c => (c.id, 1)
            | none =>
              match sim candidateName names with
              | none => (none, 0)
              | some sims =>
                let bestIdx := argmaxIdx sims
                let best := sims.getD bestIdx 0
                if threshold ≤ best then
                  match (filtered.filter candNameTruthy)[bestIdx]? with
                  | some c => (c.id, best)
                  | none => (none, best)
                else (none, best)

/-! ## Resolver: stage-name resolution inside `get_candidates_for_opening` -/

/-- The distinct stage names observed among an opening's candidates:
`list(set(...))` over truthy `stage_name`s.  Python's set enumeration order is
unspecified; the model fixes first-occurrence order, which no claim depends
on. -/
def allStageNamesOf (cands : List RawCandidate) : List String :=
  (cands.filterMap (fun c =>
    if candStage c = "" then none else some (candStage c))).dedup

/-- The stage-resolution step of `get_candidates_for_opening` (src/server.py
lines 546-583, src/app.py lines 553-590): `none` means "take all candidates";
`some names` means "keep only those stages".  The threshold is lowered to 0.3,
and a below-threshold best, a vectorization failure, or an absent stage pool
all fall back to `none`. -/
def matchingStageNames (sim : Scorer) (cands : List RawCandidate)
    (stageQuery : Option String) : Option (List String) :=
  match stageQuery with
  | none => none
  | some q =>
    let all := allStageNamesOf cands
    if all.isEmpty then none
    else if q ∈ all then some [q]
    else
      match sim q all with
      | none => none
      | some sims =>
        let bestIdx := argmaxIdx sims
        let best := sims.getD bestIdx 0
        if mkRat 3 10 ≤ best then
          match all[bestIdx]? with
          | some s => some [s]
          | none => none
        else none

/-- Step 1 of `get_candidates_for_opening`: filter the candidate list by the
resolved stage names (or keep everything when resolution fell back). -/
def stageFilteredCandidates (sim : Scorer) (cands : List RawCandidate)
    (stageQuery : Option String) : List RawCandidate :=
  match matchingStageNames sim cands stageQuery with
  | none => cands
  | some names => cands.filter (fun c => names.contains (candStage c))

/-- `int(timedelta(days=7).total_seconds())`. -/
def SEVEN_DAYS : Int := 7 * 86400

/-- The candidate-retention logic of `get_candidates_for_opening` in
src/server.py (lines 523-661): fetch, stage filter, then — only when more
than 10 candidates survive — the extra "updated within the last 7 days"
filter.  The later enrichment loop maps each retained candidate to exactly
one output record and drops none, so the retained list is what is modelled.
`nowTs` stands for `int(datetime.now().timestamp())`. -/
def get_candidates_for_opening_server (sim : Scorer)
    (fetch : Except Err (Option (List RawCandidate))) (nowTs : Int)
    (stageQuery : Option String) : Except Err (List RawCandidate) :=
  match fetch with
  | .error e => .error ("Loi ket noi den Base API khi lay ung vien: " ++ e)
  | .ok none => .ok []
  | .ok (some cands) =>
    if cands.isEmpty then .ok []
    else
      let filtered := stageFilteredCandidates sim cands stageQuery
      if 10 < filtered.length then
        .ok (filtered.filter (fun c => nowTs - SEVEN_DAYS ≤ c.last_update))
      else .ok filtered

/-- The candidate-retention logic of `get_candidates_for_opening` in
src/app.py (lines 530-648): identical to the server variant except that the
"updated within the last 7 days" block is absent. -/
def get_candidates_for_opening_app (sim : Scorer)
    (fetch : Except Err (Option (List RawCandidate)))
    (stageQuery : Option String) : Except Err (List RawCandidate) :=
  match fetch with
  | .error e => .error ("Loi ket noi den Base API khi lay ung vien: " ++ e)
  | .ok none => .ok []
  | .ok (some cands) =>
    if cands.isEmpty then .ok []
    else .ok (stageFilteredCandidates sim cands stageQuery)

/-! ## A concrete scorer attaining score 1 without string equality

`TfidfVectorizer` lowercases and tokenizes on `\b\w\w+\b`, weights counts by
positive idf factors and L2-normalizes; `cosine_similarity` then takes dot
products.  The cosine of two such vectors equals 1 exactly when they are
proportional (Cauchy–Schwarz equality), and since the idf weighting is the
same positive diagonal scaling on both sides, that happens exactly when the
raw token-count vectors are proportional.  `simBow` scores 1 on precisely
those pool entries and 0 elsewhere.  On the concrete input used below —
pool `["backend"]`, query `"Backend"` — the actual sklearn computation also
returns exactly 1.0: the vocabulary has a single term and both normalized
vectors are `[1.0]`. -/

/-- A `\w` character: alphanumeric or underscore. -/
def isWordChar (c : Char) : Bool := c.isAlphanum || c == '_'

/-- ASCII lowercasing of one character (kernel-reducible counterpart of
`str.lower()` on the ASCII inputs used here). -/
def lowerChar (c : Char) : Char :=
  if c.isUpper then Char.ofNat (c.toNat + 32) else c

/-- Split lowercased text into maximal `\w` runs, keeping runs of length ≥ 2
(sklearn's default `token_pattern=r"(?u)\b\w\w+\b"`). -/
def tokenizeAux : List Char → List Char → List String
  | [], cur => if 2 ≤ cur.length then [String.mk cur.reverse] else []
  | c :: rest, cur =>
    if isWordChar c then tokenizeAux rest (c :: cur)
    else (if 2 ≤ cur.length then [String.mk cur.reverse] else []) ++
      tokenizeAux rest []

/-- `TfidfVectorizer` tokenization of one document. -/
def tokenize (s : String) : List String := tokenizeAux (s.data.map lowerChar) []

/-- The vocabulary fitted on a pool (order immaterial for proportionality). -/
def vocabOf (pool : List String) : List String :=
  ((pool.map tokenize).flatten).dedup

/-- Raw token-count vector of a document over a vocabulary. -/
def countVec (voc : List String) (s : String) : List ℕ :=
  voc.map (fun t => (tokenize s).count t)

/-- Dot product of count vectors. -/
def dotN (u v : List ℕ) : ℕ := (u.zip v).foldl (fun a p => a + p.1 * p.2) 0

/-- Scores 1 on the pool entries whose TF-IDF cosine similarity with the
query is exactly 1 (proportional nonzero count vectors), 0 elsewhere. -/
def simBow : Scorer := fun q pool =>
  let voc := vocabOf pool
  let u := countVec voc q
  some (pool.map (fun d =>
    let v := countVec voc d
    if dotN u v ≠ 0 ∧ dotN u v ^ 2 = dotN u u * dotN v v then (1 : ℚ) else 0))

/-! ## Properties of the argmax scan -/

/-- Invariant of the argmax scan: the tracked value bounds the initial value
and every scanned element, and the result is either the untouched initial pair
or locates the first strict improvement that is maximal thereafter. -/
theorem argmaxGoP_spec (xs : List ℚ) : ∀ (bi i : ℕ) (bv : ℚ),
    bv ≤ (argmaxGoP (bi, bv) i xs).2 ∧
    (∀ x ∈ xs, x ≤ (argmaxGoP (bi, bv) i xs).2) ∧
    (argmaxGoP (bi, bv) i xs = (bi, bv) ∨
      ∃ j, j < xs.length ∧ argmaxGoP (bi, bv) i xs = (i + j, xs.getD j 0) ∧
        bv < xs.getD j 0 ∧ ∀ k < j, xs.getD k 0 < xs.getD j 0) := by
  induction xs with
  | nil =>
    intro bi i bv
    refine ⟨le_refl _, ?_, Or.inl rfl⟩
    intro x hx; exact absurd hx (List.not_mem_nil x)
  | cons x xs ih =>
    intro bi i bv
    by_cases hlt : bv < x
    · have hrec := ih i (i + 1) x
      simp only [argmaxGoP, if_pos hlt]
      obtain ⟨h1, h2, h3⟩ := hrec
      refine ⟨le_trans (le_of_lt hlt) h1, ?_, ?_⟩
      · intro y hy
        rcases List.mem_cons.mp hy with hy | hy
        · exact hy ▸ h1
        · exact h2 y hy
      · rcases h3 with h3 | ⟨j, hj, heq, hbv, hpre⟩
        · refine Or.inr ⟨0, Nat.succ_pos _, ?_, ?_, ?_⟩
          · simpa using h3
          · simpa using hlt
          · intro k hk; omega
        · refine Or.inr ⟨j + 1, by simpa using Nat.succ_lt_succ hj, ?_, ?_, ?_⟩
          · simpa [Nat.add_assoc, Nat.add_comm 1 j] using heq
          · simpa using lt_trans hlt hbv
          · intro k hk
            cases k with
            | zero => simpa using hbv
            | succ k' =>
              have : k' < j := by omega
              simpa using hpre k' this
    · have hrec := ih bi (i + 1) bv
      simp only [argmaxGoP, if_neg hlt]
      obtain ⟨h1, h2, h3⟩ := hrec
      refine ⟨h1, ?_, ?_⟩
      · intro y hy
        rcases List.mem_cons.mp hy with hy | hy
        · exact hy ▸ le_trans (not_lt.mp hlt) h1
        · exact h2 y hy
      · rcases h3 with h3 | ⟨j, hj, heq, hbv, hpre⟩
        · exact Or.inl h3
        · refine Or.inr ⟨j + 1, by simpa using Nat.succ_lt_succ hj, ?_, ?_, ?_⟩
          · simpa [Nat.add_assoc, Nat.add_comm 1 j] using heq
          · simpa using hbv
          · intro k hk
            cases k with
            | zero => simpa using lt_of_le_of_lt (not_lt.mp hlt) hbv
            | succ k' =>
              have : k' < j := by omega
              simpa using hpre k' this

/-- For a non-empty list, `argmaxIdx` is in range, picks a maximal element,
and is the first index achieving that value. -/
theorem argmax_spec (l : List ℚ) (h : l ≠ []) :
    argmaxIdx l < l.length ∧
    (∀ x ∈ l, x ≤ l.getD (argmaxIdx l) 0) ∧
    (∀ k < argmaxIdx l, l.getD k 0 < l.getD (argmaxIdx l) 0) := by
  match l with
  | [] => exact absurd rfl h
  | x :: xs =>
    obtain ⟨h1, h2, h3⟩ := argmaxGoP_spec xs 0 1 x
    rcases h3 with h3 | ⟨j, hj, heq, hbv, hpre⟩
    · have hidx : argmaxIdx (x :: xs) = 0 := by
        simp [argmaxIdx, h3]
      refine ⟨by simp [hidx], ?_, ?_⟩
      · intro y hy
        rcases List.mem_cons.mp hy with hy | hy
        · simp [hidx, hy]
        · have := h2 y hy
          rw [h3] at this
          simpa [hidx] using this
      · intro k hk; omega
    · have hidx : argmaxIdx (x :: xs) = j + 1 := by
        simp [argmaxIdx, heq, Nat.add_comm 1 j]
      have hval : (x :: xs).getD (argmaxIdx (x :: xs)) 0 = xs.getD j 0 := by
        simp [hidx]
      refine ⟨by simp [hidx]; omega, ?_, ?_⟩
      · intro y hy
        rcases List.mem_cons.mp hy with hy | hy
        · rw [hval, hy]; exact le_of_lt hbv
        · have := h2 y hy
          rw [heq] at this
          rw [hval]; exact this
      · intro k hk
        rw [hval]
        cases k with
        | zero => simpa using hbv
        | succ k' =>
          have : k' < j := by omega
          simpa using hpre k' this

/-- `List.find?` returns the element at the first index satisfying the
predicate. -/
theorem find?_eq_get_of_first {α : Type} (l : List α) (p : α → Bool) (i : ℕ)
    (hi : i < l.length) (hp : p (l.get ⟨i, hi⟩) = true)
    (hfirst : ∀ k (hk : k < i), p (l.get ⟨k, Nat.lt_trans hk hi⟩) = false) :
    l.find? p = some (l.get ⟨i, hi⟩) := by
  induction l generalizing i with
  | nil => simp at hi
  | cons x xs ih =>
    cases i with
    | zero =>
      simp only [List.get] at hp
      simp [List.find?, hp]
    | succ j =>
      have hx : p x = false := hfirst 0 (Nat.succ_pos j)
      have hj : j < xs.length := Nat.lt_of_succ_lt_succ hi
      simp only [List.find?, hx]
      have := ih j hj (by simpa using hp)
        (fun k hk => by simpa using hfirst (k + 1) (Nat.succ_lt_succ hk))
      simpa using this

/-- The Bool form of the exact-match test agrees with its Prop form. -/
theorem exactTestProp (q : String) (op : Opening) :
    ((op.id == q || op.name == q) = true) ↔ (op.id = q ∨ op.name = q) := by
  simp

/-- C1: for every pool and query, when some pool entry matches the query
verbatim by id or display name, `find_opening_id_by_name`'s post-fetch body
returns the first such entry's id and name with score 1.0, and the result
does not depend on the similarity scorer (the scorer is never invoked). -/
theorem C1_exact_match_short_circuits (sim sim' : Scorer)
    (openings : List Opening) (q : String) (θ : ℚ) (i : ℕ)
    (hi : i < openings.length)
    (hmatch : (openings.get ⟨i, hi⟩).id = q ∨ (openings.get ⟨i, hi⟩).name = q)
    (hfirst : ∀ k (hk : k < i),
      ¬ ((openings.get ⟨k, Nat.lt_trans hk hi⟩).id = q ∨
         (openings.get ⟨k, Nat.lt_trans hk hi⟩).name = q)) :
    resolveOpening sim openings q θ =
      ⟨some (openings.get ⟨i, hi⟩).id, some (openings.get ⟨i, hi⟩).name, 1⟩ ∧
    resolveOpening sim openings q θ = resolveOpening sim' openings q θ := by
  have hne : openings ≠ [] := by
    intro h; subst h; simp at hi
  have hfind : openings.find? (fun op => op.id == q || op.name == q) =
      some (openings.get ⟨i, hi⟩) := by
    apply find?_eq_get_of_first
    · exact (exactTestProp q _).mpr hmatch
    · intro k hk
      have := hfirst k hk
      rw [← exactTestProp q _] at this
      simpa using this
  have hres : ∀ s : Scorer, resolveOpening s openings q θ =
      ⟨some (openings.get ⟨i, hi⟩).id, some (openings.get ⟨i, hi⟩).name, 1⟩ := by
    intro s
    unfold resolveOpening
    rw [if_neg (by simpa [List.isEmpty_iff] using hne), hfind]
  exact ⟨hres sim, (hres sim).trans (hres sim').symm⟩

/-- Witness for C1 at a concrete input: pool
`[{id B1, name "Backend Engineer"}, {id B2, name "Backend Engineer"}]`,
query `"Backend Engineer"`; the first entry wins and the score is 1,
whatever the scorer does (here: one scorer that would reject everything and
one that would accept everything agree). -/
theorem C1_witness :
    (0 : ℕ) < 2 ∧
    resolveOpening (fun _ pool => some (pool.map (fun _ => (0 : ℚ))))
      [⟨"B1", "Backend Engineer"⟩, ⟨"B2", "Backend Engineer"⟩]
      "Backend Engineer" (mkRat 1 2) =
      ⟨some "B1", some "Backend Engineer", 1⟩ := by
  refine ⟨by decide, ?_⟩
  exact (C1_exact_match_short_circuits
    (fun _ pool => some (pool.map (fun _ => (0 : ℚ))))
    (fun _ pool => some (pool.map (fun _ => (1 : ℚ))))
    [⟨"B1", "Backend Engineer"⟩, ⟨"B2", "Backend Engineer"⟩]
    "Backend Engineer" (mkRat 1 2) 0 (by decide)
    (by right; rfl) (fun k hk => by omega)).1

/-- C2: for a non-empty pool with no exact match and a successful scorer run,
the resolver's result is governed by the maximum score `b`: if `b` reaches the
threshold it returns the id and name of the first pool entry achieving `b`
together with `b`; otherwise it returns null id and null name but still
reports `b`. -/
theorem C2_fuzzy_threshold_gate (sim : Scorer) (openings : List Opening)
    (q : String) (θ : ℚ) (scores : List ℚ)
    (hne : openings ≠ [])
    (hnoexact : ∀ op ∈ openings, ¬ (op.id = q ∨ op.name = q))
    (hsim : sim q (openings.map (·.name)) = some scores)
    (hlen : scores.length = openings.length) :
    ∃ b, b ∈ scores ∧ (∀ s ∈ scores, s ≤ b) ∧
      (θ ≤ b → ∃ (i : ℕ) (hi : i < openings.length),
        scores.getD i 0 = b ∧ (∀ k < i, scores.getD k 0 < b) ∧
        resolveOpening sim openings q θ =
          ⟨some (openings.get ⟨i, hi⟩).id, some (openings.get ⟨i, hi⟩).name, b⟩) ∧
      (b < θ → resolveOpening sim openings q θ = ⟨none, none, b⟩) := by
  have hsc_ne : scores ≠ [] := by
    intro h
    rw [h] at hlen
    exact hne (List.eq_nil_of_length_eq_zero hlen.symm)
  obtain ⟨hlt, hmax, hpre⟩ := argmax_spec scores hsc_ne
  have hjo : argmaxIdx scores < openings.length := hlen ▸ hlt
  have hfind : openings.find? (fun op => op.id == q || op.name == q) = none := by
    apply List.find?_eq_none.mpr
    intro op hop
    simp only [Bool.not_eq_true', Bool.eq_false_iff, Ne, exactTestProp]
    exact hnoexact op hop
  have hnames_ne : (openings.map (·.name)).isEmpty = false := by
    rw [List.isEmpty_eq_false]
    simpa using hne
  have hres : resolveOpening sim openings q θ =
      (if θ ≤ scores.getD (argmaxIdx scores) 0 then
        match openings[argmaxIdx scores]? with
        | some op => ⟨some op.id, some op.name, scores.getD (argmaxIdx scores) 0⟩
        | none => ⟨none, none, 0⟩
      else ⟨none, none, scores.getD (argmaxIdx scores) 0⟩) := by
    unfold resolveOpening
    rw [if_neg (by simp [List.isEmpty_iff, hne]), hfind]
    simp only [hnames_ne, Bool.false_eq_true, if_false, hsim]
  refine ⟨scores.getD (argmaxIdx scores) 0, ?_, ?_, ?_, ?_⟩
  · rw [List.getD_eq_getElem scores 0 hlt]
    exact List.getElem_mem hlt
  · exact hmax
  · intro hθ
    refine ⟨argmaxIdx scores, hjo, rfl, hpre, ?_⟩
    rw [hres, if_pos hθ, List.getElem?_eq_getElem hjo]
    rfl
  · intro hb
    rw [hres, if_neg (not_le.mpr hb)]

/-- Witness for C2 at a concrete input: pool
`[{B1, "Backend Engineer"}, {B2, "Data Analyst"}]`, query `"Backend Eng"`,
scores `[7/10, 1/10]`, threshold `1/2`. -/
theorem C2_witness :
    (([⟨"B1", "Backend Engineer"⟩, ⟨"B2", "Data Analyst"⟩] : List Opening) ≠ []) ∧
    ∃ b, b ∈ [mkRat 7 10, mkRat 1 10] ∧
      (∀ s ∈ [mkRat 7 10, mkRat 1 10], s ≤ b) ∧
      (mkRat 1 2 ≤ b → ∃ (i : ℕ)
          (hi : i < ([⟨"B1", "Backend Engineer"⟩, ⟨"B2", "Data Analyst"⟩] : List Opening).length),
        [mkRat 7 10, mkRat 1 10].getD i 0 = b ∧
        (∀ k < i, [mkRat 7 10, mkRat 1 10].getD k 0 < b) ∧
        resolveOpening (fun _ _ => some [mkRat 7 10, mkRat 1 10])
          [⟨"B1", "Backend Engineer"⟩, ⟨"B2", "Data Analyst"⟩] "Backend Eng" (mkRat 1 2) =
          ⟨some (([⟨"B1", "Backend Engineer"⟩, ⟨"B2", "Data Analyst"⟩] : List Opening).get ⟨i, hi⟩).id,
           some (([⟨"B1", "Backend Engineer"⟩, ⟨"B2", "Data Analyst"⟩] : List Opening).get ⟨i, hi⟩).name, b⟩) ∧
      (b < mkRat 1 2 →
        resolveOpening (fun _ _ => some [mkRat 7 10, mkRat 1 10])
          [⟨"B1", "Backend Engineer"⟩, ⟨"B2", "Data Analyst"⟩] "Backend Eng" (mkRat 1 2) =
          ⟨none, none, b⟩) :=
  ⟨by decide,
    C2_fuzzy_threshold_gate (fun _ _ => some [mkRat 7 10, mkRat 1 10])
      [⟨"B1", "Backend Engineer"⟩, ⟨"B2", "Data Analyst"⟩] "Backend Eng" (mkRat 1 2)
      [mkRat 7 10, mkRat 1 10] (by decide) (by decide) rfl (by decide)⟩

/-- C3 counterexample: with the pool `[{id "op1", name "backend"}]` and the
query `"Backend"`, no entry equals the query verbatim by id or by name, yet
the fuzzy fallback returns score exactly 1 (TF-IDF cosine of a case-variant
query whose token-count vector is proportional to the pool entry's; on this
input the actual sklearn computation also yields the float 1.0, since the
fitted vocabulary has a single term).  So `score == 1.0` does not imply an
exact match. -/
theorem C3_counterexample :
    resolveOpening simBow [⟨"op1", "backend"⟩] "Backend" (mkRat 1 2) =
      ⟨some "op1", some "backend", 1⟩ ∧
    ("op1" : String) ≠ "Backend" ∧ ("backend" : String) ≠ "Backend" := by
  decide

/-- C3 amended: every exact match yields exactly score 1.0 with a non-null id
and matched name, and (for a threshold ≤ 1, as all configured thresholds are)
any result with score 1.0 carries a non-null id — but score 1.0 can also be
produced by the fuzzy cosine fallback, so it does not imply an exact match. -/
theorem C3_amended_score_one (sim : Scorer) (openings : List Opening)
    (q : String) (θ : ℚ) (hθ : θ ≤ 1) :
    ((∃ (i : ℕ) (hi : i < openings.length),
        (openings.get ⟨i, hi⟩).id = q ∨ (openings.get ⟨i, hi⟩).name = q) →
      (resolveOpening sim openings q θ).score = 1 ∧
      (resolveOpening sim openings q θ).id.isSome) ∧
    ((resolveOpening sim openings q θ).score = 1 →
      (resolveOpening sim openings q θ).id.isSome) := by
  constructor
  · rintro ⟨i, hi, hmatch⟩
    cases hfind : openings.find? (fun op => op.id == q || op.name == q) with
    | none =>
      exfalso
      have hnone := List.find?_eq_none.mp hfind (openings.get ⟨i, hi⟩)
        (openings.get_mem i hi)
      simp only [Bool.not_eq_true', Bool.eq_false_iff, Ne, exactTestProp] at hnone
      exact hnone hmatch
    | some op =>
      have hE : openings.isEmpty ≠ true := by
        intro hcon
        rw [List.isEmpty_iff] at hcon
        subst hcon
        simp at hi
      have hval : resolveOpening sim openings q θ = ⟨some op.id, some op.name, 1⟩ := by
        unfold resolveOpening
        rw [if_neg hE, hfind]
      rw [hval]
      exact ⟨rfl, rfl⟩
  · intro hscore
    by_cases hE : openings.isEmpty = true
    · have hval : resolveOpening sim openings q θ = ⟨none, none, 0⟩ := by
        unfold resolveOpening
        rw [if_pos hE]
      rw [hval] at hscore
      exact absurd hscore (by norm_num)
    · cases hfind : openings.find? (fun op => op.id == q || op.name == q) with
      | some op =>
        have hval : resolveOpening sim openings q θ = ⟨some op.id, some op.name, 1⟩ := by
          unfold resolveOpening
          rw [if_neg hE, hfind]
        rw [hval]
        rfl
      | none =>
        by_cases hN : (openings.map (·.name)).isEmpty = true
        · have hval : resolveOpening sim openings q θ = ⟨none, none, 0⟩ := by
            unfold resolveOpening
            rw [if_neg hE, hfind, if_pos hN]
          rw [hval] at hscore
          exact absurd hscore (by norm_num)
        · cases hsim : sim q (openings.map (·.name)) with
          | none =>
            have hval : resolveOpening sim openings q θ = ⟨none, none, 0⟩ := by
              unfold resolveOpening
              rw [if_neg hE, hfind, if_neg hN, hsim]
            rw [hval] at hscore
            exact absurd hscore (by norm_num)
          | some scores =>
            by_cases hacc : θ ≤ scores.getD (argmaxIdx scores) 0
            · cases hidx : openings[argmaxIdx scores]? with
              | some op =>
                have hval : resolveOpening sim openings q θ =
                    ⟨some op.id, some op.name, scores.getD (argmaxIdx scores) 0⟩ := by
                  unfold resolveOpening
                  rw [if_neg hE, hfind, if_neg hN, hsim]
                  simp only [hidx, if_pos hacc]
                rw [hval]
                rfl
              | none =>
                have hval : resolveOpening sim openings q θ = ⟨none, none, 0⟩ := by
                  unfold resolveOpening
                  rw [if_neg hE, hfind, if_neg hN, hsim]
                  simp only [hidx, if_pos hacc]
                rw [hval] at hscore
                exact absurd hscore (by norm_num)
            · have hval : resolveOpening sim openings q θ =
                  ⟨none, none, scores.getD (argmaxIdx scores) 0⟩ := by
                unfold resolveOpening
                rw [if_neg hE, hfind, if_neg hN, hsim]
                simp only [if_neg hacc]
              rw [hval] at hscore
              simp only at hscore
              exact absurd (hscore ▸ (not_le.mp hacc)) (not_lt.mpr hθ)

/-- Witness for the amended C3 at a concrete input: pool
`[{O1, "Data Analyst"}]`, query `"Data Analyst"`, threshold 1/2. -/
theorem C3_amended_witness :
    (mkRat 1 2 ≤ (1 : ℚ)) ∧
    (((∃ (i : ℕ) (hi : i < ([⟨"O1", "Data Analyst"⟩] : List Opening).length),
        (([⟨"O1", "Data Analyst"⟩] : List Opening).get ⟨i, hi⟩).id = "Data Analyst" ∨
        (([⟨"O1", "Data Analyst"⟩] : List Opening).get ⟨i, hi⟩).name = "Data Analyst") →
      (resolveOpening simBow [⟨"O1", "Data Analyst"⟩] "Data Analyst" (mkRat 1 2)).score = 1 ∧
      (resolveOpening simBow [⟨"O1", "Data Analyst"⟩] "Data Analyst" (mkRat 1 2)).id.isSome) ∧
    ((resolveOpening simBow [⟨"O1", "Data Analyst"⟩] "Data Analyst" (mkRat 1 2)).score = 1 →
      (resolveOpening simBow [⟨"O1", "Data Analyst"⟩] "Data Analyst" (mkRat 1 2)).id.isSome)) :=
  ⟨by decide,
    C3_amended_score_one simBow [⟨"O1", "Data Analyst"⟩] "Data Analyst" (mkRat 1 2)
      (by decide)⟩

/-- TTL behaviour of the openings fetcher: a populating call at `t0` followed
by a call strictly inside the TTL window serves the cache without a request;
at or past the TTL boundary the request is issued again. -/
theorem ttl_openings (t0 t1 : ℚ) (key : String) (cache : Cache)
    (raw : Option (List RawOpening)) (fetch2 : Except Err (Option (List RawOpening)))
    (hkey : key ≠ "") (hO : cacheHit true cache.openings t0 = none) :
    (get_base_openings (.ok raw) t0 key cache true).1 = .ok (filterActiveOpenings raw) ∧
    (get_base_openings (.ok raw) t0 key cache true).2.2 = true ∧
    (t1 - t0 < CACHE_TTL →
      get_base_openings fetch2 t1 key (get_base_openings (.ok raw) t0 key cache true).2.1 true =
        (.ok (filterActiveOpenings raw),
         (get_base_openings (.ok raw) t0 key cache true).2.1, false)) ∧
    (CACHE_TTL ≤ t1 - t0 →
      (get_base_openings fetch2 t1 key
        (get_base_openings (.ok raw) t0 key cache true).2.1 true).2.2 = true) := by
  have e1 : get_base_openings (.ok raw) t0 key cache true =
      (.ok (filterActiveOpenings raw),
       { cache with openings := ⟨some (filterActiveOpenings raw), t0⟩ }, true) := by
    unfold get_base_openings
    rw [if_neg hkey, hO]
    rfl
  refine ⟨by rw [e1], by rw [e1], ?_, ?_⟩
  · intro hlt
    rw [e1]
    unfold get_base_openings cacheHit
    rw [if_neg hkey]
    simp only [if_pos hlt, if_true]
  · intro hge
    rw [e1]
    unfold get_base_openings cacheHit
    rw [if_neg hkey]
    simp only [if_neg (not_lt.mpr hge), if_true]
    cases fetch2 <;> rfl

/-- TTL behaviour of the job-descriptions fetcher, as `ttl_openings`. -/
theorem ttl_jd (t0 t1 : ℚ) (key : String) (cache : Cache)
    (getText : String → String) (rawJD : List RawOpening)
    (fetch2 : Except Err (Option (List RawOpening)))
    (hkey : key ≠ "") (hJ : cacheHit true cache.job_descriptions t0 = none) :
    (get_job_descriptions getText (.ok (some rawJD)) t0 key cache true).1 =
      .ok (shapeJobDescriptions getText rawJD) ∧
    (get_job_descriptions getText (.ok (some rawJD)) t0 key cache true).2.2 = true ∧
    (t1 - t0 < CACHE_TTL →
      get_job_descriptions getText fetch2 t1 key
          (get_job_descriptions getText (.ok (some rawJD)) t0 key cache true).2.1 true =
        (.ok (shapeJobDescriptions getText rawJD),
         (get_job_descriptions getText (.ok (some rawJD)) t0 key cache true).2.1, false)) ∧
    (CACHE_TTL ≤ t1 - t0 →
      (get_job_descriptions getText fetch2 t1 key
        (get_job_descriptions getText (.ok (some rawJD)) t0 key cache true).2.1 true).2.2 = true) := by
  have e1 : get_job_descriptions getText (.ok (some rawJD)) t0 key cache true =
      (.ok (shapeJobDescriptions getText rawJD),
       { cache with job_descriptions := ⟨some (shapeJobDescriptions getText rawJD), t0⟩ }, true) := by
    unfold get_job_descriptions
    rw [if_neg hkey, hJ]
    rfl
  refine ⟨by rw [e1], by rw [e1], ?_, ?_⟩
  · intro hlt
    rw [e1]
    unfold get_job_descriptions cacheHit
    rw [if_neg hkey]
    simp only [if_pos hlt, if_true]
  · intro hge
    rw [e1]
    unfold get_job_descriptions cacheHit
    rw [if_neg hkey]
    simp only [if_neg (not_lt.mpr hge), if_true]
    rcases fetch2 with e | r
    · rfl
    · cases r <;> rfl

/-- TTL behaviour of the user-directory fetcher, as `ttl_openings`. -/
theorem ttl_users (t0 t1 : ℚ) (acct : String) (cache : Cache)
    (users : Option (List RawUser)) (fetch2 : UsersFetch)
    (hacct : acct ≠ "") (hU : cacheHit true cache.users_info t0 = none) :
    (get_users_info acct (.parsed users) t0 cache true).1 =
      buildUsersMap (users.getD []) [] ∧
    (get_users_info acct (.parsed users) t0 cache true).2.2 = true ∧
    (t1 - t0 < CACHE_TTL →
      get_users_info acct fetch2 t1
          (get_users_info acct (.parsed users) t0 cache true).2.1 true =
        (buildUsersMap (users.getD []) [],
         (get_users_info acct (.parsed users) t0 cache true).2.1, false)) ∧
    (CACHE_TTL ≤ t1 - t0 →
      (get_users_info acct fetch2 t1
        (get_users_info acct (.parsed users) t0 cache true).2.1 true).2.2 = true) := by
  have e1 : get_users_info acct (.parsed users) t0 cache true =
      (buildUsersMap (users.getD []) [],
       { cache with users_info := ⟨some (buildUsersMap (users.getD []) []), t0⟩ }, true) := by
    unfold get_users_info
    rw [if_neg hacct, hU]
    rfl
  refine ⟨by rw [e1], by rw [e1], ?_, ?_⟩
  · intro hlt
    rw [e1]
    unfold get_users_info cacheHit
    rw [if_neg hacct]
    simp only [if_pos hlt, if_true]
  · intro hge
    rw [e1]
    unfold get_users_info cacheHit
    rw [if_neg hacct]
    simp only [if_neg (not_lt.mpr hge), if_true]
    cases fetch2 <;> rfl

/-- C5: for each cache kind (openings, job descriptions, user directory), a
read-through call at `t0` that populates the cache followed by a call at any
`t1` with `t1 - t0 < TTL` returns the cached data without issuing the
upstream request (so the request runs exactly once combined), while a call
with `t1 - t0 ≥ TTL` issues the request again. -/
theorem C5_cache_ttl_respected (t0 t1 : ℚ) (key acct : String) (cache : Cache)
    (raw : Option (List RawOpening)) (fetchO2 : Except Err (Option (List RawOpening)))
    (getText : String → String) (rawJD : List RawOpening)
    (fetchJ2 : Except Err (Option (List RawOpening)))
    (users : Option (List RawUser)) (fetchU2 : UsersFetch)
    (hkey : key ≠ "") (hacct : acct ≠ "")
    (hO : cacheHit true cache.openings t0 = none)
    (hJ : cacheHit true cache.job_descriptions t0 = none)
    (hU : cacheHit true cache.users_info t0 = none) :
    ((get_base_openings (.ok raw) t0 key cache true).1 = .ok (filterActiveOpenings raw) ∧
     (get_base_openings (.ok raw) t0 key cache true).2.2 = true ∧
     (t1 - t0 < CACHE_TTL →
       get_base_openings fetchO2 t1 key (get_base_openings (.ok raw) t0 key cache true).2.1 true =
         (.ok (filterActiveOpenings raw),
          (get_base_openings (.ok raw) t0 key cache true).2.1, false)) ∧
     (CACHE_TTL ≤ t1 - t0 →
       (get_base_openings fetchO2 t1 key
         (get_base_openings (.ok raw) t0 key cache true).2.1 true).2.2 = true)) ∧
    ((get_job_descriptions getText (.ok (some rawJD)) t0 key cache true).1 =
       .ok (shapeJobDescriptions getText rawJD) ∧
     (get_job_descriptions getText (.ok (some rawJD)) t0 key cache true).2.2 = true ∧
     (t1 - t0 < CACHE_TTL →
       get_job_descriptions getText fetchJ2 t1 key
           (get_job_descriptions getText (.ok (some rawJD)) t0 key cache true).2.1 true =
         (.ok (shapeJobDescriptions getText rawJD),
          (get_job_descriptions getText (.ok (some rawJD)) t0 key cache true).2.1, false)) ∧
     (CACHE_TTL ≤ t1 - t0 →
       (get_job_descriptions getText fetchJ2 t1 key
         (get_job_descriptions getText (.ok (some rawJD)) t0 key cache true).2.1 true).2.2 = true)) ∧
    ((get_users_info acct (.parsed users) t0 cache true).1 =
       buildUsersMap (users.getD []) [] ∧
     (get_users_info acct (.parsed users) t0 cache true).2.2 = true ∧
     (t1 - t0 < CACHE_TTL →
       get_users_info acct fetchU2 t1
           (get_users_info acct (.parsed users) t0 cache true).2.1 true =
         (buildUsersMap (users.getD []) [],
          (get_users_info acct (.parsed users) t0 cache true).2.1, false)) ∧
     (CACHE_TTL ≤ t1 - t0 →
       (get_users_info acct fetchU2 t1
         (get_users_info acct (.parsed users) t0 cache true).2.1 true).2.2 = true)) :=
  ⟨ttl_openings t0 t1 key cache raw fetchO2 hkey hO,
   ttl_jd t0 t1 key cache getText rawJD fetchJ2 hkey hJ,
   ttl_users t0 t1 acct cache users fetchU2 hacct hU⟩

/-- Witness for C5 at a concrete input: populate at t0 = 10; a second call at
t1 = 100 (inside the TTL) serves the cache and issues no request even though
the network is down; a call at t1 = 310 = t0 + TTL issues the request again. -/
theorem C5_witness :
    get_base_openings (.error "down") 100 "k"
        (get_base_openings (.ok (some [⟨"1", "A", some "10", "x"⟩])) 10 "k" Cache.init true).2.1
        true =
      (.ok [⟨"1", "A"⟩],
       (get_base_openings (.ok (some [⟨"1", "A", some "10", "x"⟩])) 10 "k" Cache.init true).2.1,
       false) ∧
    (get_base_openings (.error "down") 310 "k"
        (get_base_openings (.ok (some [⟨"1", "A", some "10", "x"⟩])) 10 "k" Cache.init true).2.1
        true).2.2 = true := by
  have h1 := C5_cache_ttl_respected 10 100 "k" "a" Cache.init
    (some [⟨"1", "A", some "10", "x"⟩]) (.error "down") id [] (.ok none) none (.parsed none)
    (by decide) (by decide) rfl rfl rfl
  have h2 := C5_cache_ttl_respected 10 310 "k" "a" Cache.init
    (some [⟨"1", "A", some "10", "x"⟩]) (.error "down") id [] (.ok none) none (.parsed none)
    (by decide) (by decide) rfl rfl rfl
  exact ⟨h1.1.2.2.1 (by norm_num [CACHE_TTL]), h2.1.2.2.2 (by norm_num [CACHE_TTL])⟩

/-- C6 counterexample: with a freshly populated cache entry
(`data = [{1, A}]`, stored at the same instant 50), a `use_cache=False` call
does issue the request and returns the newly fetched `[{2, B}]` — but the
cache is returned *unchanged*: the fetched result is not stored, contradicting
"stores the fetched result in the cache entry with the current timestamp". -/
theorem C6_counterexample :
    (get_base_openings (.ok (some [⟨"2", "B", some "10", "y"⟩])) 50 "k"
        ⟨⟨some [⟨"1", "A"⟩], 50⟩, ⟨none, 0⟩, ⟨none, 0⟩⟩ false).2.2 = true ∧
    (get_base_openings (.ok (some [⟨"2", "B", some "10", "y"⟩])) 50 "k"
        ⟨⟨some [⟨"1", "A"⟩], 50⟩, ⟨none, 0⟩, ⟨none, 0⟩⟩ false).1 = .ok [⟨"2", "B"⟩] ∧
    (get_base_openings (.ok (some [⟨"2", "B", some "10", "y"⟩])) 50 "k"
        ⟨⟨some [⟨"1", "A"⟩], 50⟩, ⟨none, 0⟩, ⟨none, 0⟩⟩ false).2.1 =
      ⟨⟨some [⟨"1", "A"⟩], 50⟩, ⟨none, 0⟩, ⟨none, 0⟩⟩ ∧
    ((⟨some [⟨"1", "A"⟩], 50⟩ : CacheEntry (List Opening)) ≠ ⟨some [⟨"2", "B"⟩], 50⟩) :=
  ⟨rfl, rfl, rfl, by decide⟩

/-- C6 amended: for every cache kind and cache state, a call with
`use_cache=False` always issues the upstream request — even immediately after
a fresh population — and returns the fetched result, but it does *not* store
anything: the cache is returned unchanged. -/
theorem C6_amended_bypass (fetchO : Except Err (Option (List RawOpening)))
    (getText : String → String) (fetchJ : Except Err (Option (List RawOpening)))
    (fetchU : UsersFetch) (now : ℚ) (key acct : String) (cache : Cache)
    (hkey : key ≠ "") (hacct : acct ≠ "") :
    ((get_base_openings fetchO now key cache false).2.2 = true ∧
     (get_base_openings fetchO now key cache false).2.1 = cache ∧
     ∀ raw, fetchO = .ok raw →
       (get_base_openings fetchO now key cache false).1 = .ok (filterActiveOpenings raw)) ∧
    ((get_job_descriptions getText fetchJ now key cache false).2.2 = true ∧
     (get_job_descriptions getText fetchJ now key cache false).2.1 = cache ∧
     ∀ l, fetchJ = .ok (some l) →
       (get_job_descriptions getText fetchJ now key cache false).1 =
         .ok (shapeJobDescriptions getText l)) ∧
    ((get_users_info acct fetchU now cache false).2.2 = true ∧
     (get_users_info acct fetchU now cache false).2.1 = cache ∧
     ∀ u, fetchU = .parsed u →
       (get_users_info acct fetchU now cache false).1 = buildUsersMap (u.getD []) []) := by
  refine ⟨⟨?_, ?_, ?_⟩, ⟨?_, ?_, ?_⟩, ?_, ?_, ?_⟩
  · unfold get_base_openings
    rw [if_neg hkey]
    cases fetchO <;> rfl
  · unfold get_base_openings
    rw [if_neg hkey]
    cases fetchO <;> rfl
  · intro raw hraw
    subst hraw
    unfold get_base_openings
    rw [if_neg hkey]
    rfl
  · unfold get_job_descriptions
    rw [if_neg hkey]
    rcases fetchJ with e | r
    · rfl
    · cases r <;> rfl
  · unfold get_job_descriptions
    rw [if_neg hkey]
    rcases fetchJ with e | r
    · rfl
    · cases r <;> rfl
  · intro l hl
    subst hl
    unfold get_job_descriptions
    rw [if_neg hkey]
    rfl
  · unfold get_users_info
    rw [if_neg hacct]
    cases fetchU <;> rfl
  · unfold get_users_info
    rw [if_neg hacct]
    cases fetchU <;> rfl
  · intro u hu
    subst hu
    unfold get_users_info
    rw [if_neg hacct]
    rfl

/-- Witness for the amended C6 at a concrete input: the bypass call issues
the request right after a fresh population and leaves the cache unchanged. -/
theorem C6_amended_witness :
    ("k" : String) ≠ "" ∧
    (get_base_openings (.ok (some [⟨"2", "B", some "10", "y"⟩])) 50 "k"
        ⟨⟨some [⟨"1", "A"⟩], 50⟩, ⟨none, 0⟩, ⟨none, 0⟩⟩ false).2.2 = true ∧
    (get_base_openings (.ok (some [⟨"2", "B", some "10", "y"⟩])) 50 "k"
        ⟨⟨some [⟨"1", "A"⟩], 50⟩, ⟨none, 0⟩, ⟨none, 0⟩⟩ false).2.1 =
      ⟨⟨some [⟨"1", "A"⟩], 50⟩, ⟨none, 0⟩, ⟨none, 0⟩⟩ := by
  have h := C6_amended_bypass (.ok (some [⟨"2", "B", some "10", "y"⟩])) id (.ok none)
    (.parsed none) 50 "k" "a" ⟨⟨some [⟨"1", "A"⟩], 50⟩, ⟨none, 0⟩, ⟨none, 0⟩⟩
    (by decide) (by decide)
  exact ⟨by decide, h.1.1, h.1.2.1⟩

/-- C4 counterexample: an upstream fetch error during opening resolution is
*not* caught: `find_opening_id_by_name` calls `get_base_openings`, whose
raised connectivity exception propagates out of the resolver instead of
being turned into a score-0.0 no-match. -/
theorem C4_counterexample :
    find_opening_id_by_name simBow (.error "timeout") 0 "k" Cache.init
        "Backend Engineer" (mkRat 1 2) =
      .error "Loi ket noi den Base API: timeout" ∧
    (find_opening_id_by_name simBow (.error "timeout") 0 "k" Cache.init
        "Backend Engineer" (mkRat 1 2)).isOk = false :=
  ⟨rfl, rfl⟩

/-- C4 amended: vectorization errors inside a resolution attempt are caught
locally and yield a score-0.0 no-match, and an upstream fetch error inside
candidate-within-opening resolution is caught likewise; but an upstream fetch
error while loading the opening pool propagates as an exception out of
opening resolution (it is not caught there). -/
theorem C4_amended_error_handling (sim : Scorer) (openings : List Opening)
    (q oid : String) (θ : ℚ) (e : Err) (fs : Option (List String)) :
    ((∀ op ∈ openings, ¬ (op.id = q ∨ op.name = q)) →
      sim q (openings.map (·.name)) = none →
      resolveOpening sim openings q θ = ⟨none, none, 0⟩) ∧
    (find_candidate_by_name_in_opening sim (.error e) q oid θ fs = (none, 0)) ∧
    (∀ (now : ℚ) (key : String) (cache : Cache), key ≠ "" →
      cacheHit true cache.openings now = none →
      find_opening_id_by_name sim (.error e) now key cache q θ =
        .error ("Loi ket noi den Base API: " ++ e)) := by
  refine ⟨?_, ?_, ?_⟩
  · intro hnoexact hsim
    have hfind : openings.find? (fun op => op.id == q || op.name == q) = none := by
      apply List.find?_eq_none.mpr
      intro op hop
      simp only [Bool.not_eq_true', Bool.eq_false_iff, Ne, exactTestProp]
      exact hnoexact op hop
    by_cases hE : openings.isEmpty = true
    · unfold resolveOpening
      rw [if_pos hE]
    · by_cases hN : (openings.map (·.name)).isEmpty = true
      · unfold resolveOpening
        rw [if_neg hE, hfind, if_pos hN]
      · unfold resolveOpening
        rw [if_neg hE, hfind, if_neg hN, hsim]
  · unfold find_candidate_by_name_in_opening
    split <;> rfl
  · intro now key cache hkey hO
    unfold find_opening_id_by_name get_base_openings
    rw [if_neg hkey, hO]

/-- Witness for the amended C4 at concrete inputs: a failing scorer gives a
score-0 no-match in opening resolution; a failing candidate-list fetch gives
a score-0 no-match in candidate resolution; a failing opening-list fetch
makes opening resolution propagate the exception. -/
theorem C4_amended_witness :
    resolveOpening (fun _ _ => none) [⟨"1", "A"⟩] "B" (mkRat 1 2) = ⟨none, none, 0⟩ ∧
    find_candidate_by_name_in_opening (fun _ _ => none) (.error "down") "B" "77"
      (mkRat 1 2) none = (none, 0) ∧
    find_opening_id_by_name (fun _ _ => none) (.error "down") 0 "k" Cache.init
      "B" (mkRat 1 2) = .error "Loi ket noi den Base API: down" := by
  have h := C4_amended_error_handling (fun _ _ => none) [⟨"1", "A"⟩] "B" "77"
    (mkRat 1 2) "down" none
  exact ⟨h.1 (by decide) rfl, h.2.1, h.2.2 0 "k" Cache.init (by decide) rfl⟩

/-- C7: stage-name resolution over the distinct stage names of an opening's
candidates: an exact-matching stage name is used directly; otherwise the
(first) stage name with highest cosine similarity is used when that
similarity is at least 0.3; and when resolution falls back (`none`) — which
happens when the best similarity is below 0.3, when vectorization fails, or
when no candidate carries a stage name — the candidate list is not filtered
at all. -/
theorem C7_stage_resolution (sim : Scorer) (cands : List RawCandidate)
    (q : String) :
    (q ∈ allStageNamesOf cands →
      matchingStageNames sim cands (some q) = some [q]) ∧
    (∀ scores, q ∉ allStageNamesOf cands →
      sim q (allStageNamesOf cands) = some scores →
      scores.length = (allStageNamesOf cands).length →
      scores ≠ [] →
      mkRat 3 10 ≤ scores.getD (argmaxIdx scores) 0 →
      ∃ (i : ℕ) (hi : i < (allStageNamesOf cands).length),
        (∀ s ∈ scores, s ≤ scores.getD i 0) ∧
        matchingStageNames sim cands (some q) =
          some [(allStageNamesOf cands).get ⟨i, hi⟩]) ∧
    (matchingStageNames sim cands (some q) = none →
      stageFilteredCandidates sim cands (some q) = cands) ∧
    (q ∉ allStageNamesOf cands → sim q (allStageNamesOf cands) = none →
      matchingStageNames sim cands (some q) = none) ∧
    (∀ scores, q ∉ allStageNamesOf cands →
      sim q (allStageNamesOf cands) = some scores →
      scores.getD (argmaxIdx scores) 0 < mkRat 3 10 →
      matchingStageNames sim cands (some q) = none) ∧
    (allStageNamesOf cands = [] → matchingStageNames sim cands (some q) = none) := by
  refine ⟨?_, ?_, ?_, ?_, ?_, ?_⟩
  · intro hq
    have hne : (allStageNamesOf cands).isEmpty ≠ true := by
      intro hcon
      rw [List.isEmpty_iff] at hcon
      rw [hcon] at hq
      exact absurd hq (List.not_mem_nil q)
    simp only [matchingStageNames]
    rw [if_neg hne, if_pos hq]
  · intro scores hq hsim hlen hne hge
    obtain ⟨hlt, hmax, _⟩ := argmax_spec scores hne
    have hia : argmaxIdx scores < (allStageNamesOf cands).length := hlen ▸ hlt
    have hEne : (allStageNamesOf cands).isEmpty ≠ true := by
      intro hcon
      rw [List.isEmpty_iff] at hcon
      rw [hcon] at hia
      simp at hia
    refine ⟨argmaxIdx scores, hia, hmax, ?_⟩
    simp only [matchingStageNames]
    rw [if_neg hEne, if_neg hq, hsim]
    simp only [if_pos hge, List.getElem?_eq_getElem hia]
    rfl
  · intro hnone
    unfold stageFilteredCandidates
    rw [hnone]
  · intro hq hsim
    by_cases hE : (allStageNamesOf cands).isEmpty = true
    · simp only [matchingStageNames]
      rw [if_pos hE]
    · simp only [matchingStageNames]
      rw [if_neg hE, if_neg hq, hsim]
  · intro scores hq hsim hlt
    by_cases hE : (allStageNamesOf cands).isEmpty = true
    · simp only [matchingStageNames]
      rw [if_pos hE]
    · simp only [matchingStageNames]
      rw [if_neg hE, if_neg hq, hsim]
      simp only [if_neg (not_le.mpr hlt)]
  · intro hnil
    simp only [matchingStageNames]
    rw [if_pos (by rw [List.isEmpty_iff]; exact hnil)]

/-- Witness for C7 at concrete inputs: with candidates in stages "Offered"
and "Hired", the query "Offered" matches exactly; and with a failing scorer
and the unmatched query "Zzz", the candidate list is left unfiltered. -/
theorem C7_witness :
    matchingStageNames (fun _ _ => none)
      [⟨some "c1", some "An", some "Offered", 0⟩,
       ⟨some "c2", some "Binh", some "Hired", 0⟩] (some "Offered") =
      some ["Offered"] ∧
    stageFilteredCandidates (fun _ _ => none)
      [⟨some "c1", some "An", some "Offered", 0⟩,
       ⟨some "c2", some "Binh", some "Hired", 0⟩] (some "Zzz") =
      [⟨some "c1", some "An", some "Offered", 0⟩,
       ⟨some "c2", some "Binh", some "Hired", 0⟩] := by
  have h1 := C7_stage_resolution (fun _ _ => none)
    [⟨some "c1", some "An", some "Offered", 0⟩,
     ⟨some "c2", some "Binh", some "Hired", 0⟩] "Offered"
  have h2 := C7_stage_resolution (fun _ _ => none)
    [⟨some "c1", some "An", some "Offered", 0⟩,
     ⟨some "c2", some "Binh", some "Hired", 0⟩] "Zzz"
  exact ⟨h1.1 (by decide), h2.2.2.1 (h2.2.2.2.1 (by decide) rfl)⟩

/-- C9: of the two near-duplicate candidate-listing implementations, only the
server one applies the extra "last updated within 7 days" filter, and it does
so exactly when more than 10 candidates survive the stage filter (keeping the
candidates with `last_update ≥ now - 7 days`); the app implementation always
returns the stage-filtered list unchanged. -/
theorem C9_seven_day_filter (sim : Scorer) (nowTs : Int)
    (cands : List RawCandidate) (stageQuery : Option String) :
    (10 < (stageFilteredCandidates sim cands stageQuery).length →
      get_candidates_for_opening_server sim (.ok (some cands)) nowTs stageQuery =
        .ok ((stageFilteredCandidates sim cands stageQuery).filter
          (fun c => nowTs - SEVEN_DAYS ≤ c.last_update))) ∧
    ((stageFilteredCandidates sim cands stageQuery).length ≤ 10 →
      get_candidates_for_opening_server sim (.ok (some cands)) nowTs stageQuery =
        .ok (stageFilteredCandidates sim cands stageQuery)) ∧
    (get_candidates_for_opening_app sim (.ok (some cands)) stageQuery =
      .ok (stageFilteredCandidates sim cands stageQuery)) := by
  by_cases hE : cands.isEmpty = true
  · have hc : cands = [] := List.isEmpty_iff.mp hE
    subst hc
    have hsf : stageFilteredCandidates sim [] stageQuery = [] := by
      cases stageQuery <;> rfl
    refine ⟨?_, ?_, ?_⟩
    · intro h10
      rw [hsf] at h10
      exact absurd h10 (by decide)
    · intro _
      rw [hsf]
      rfl
    · rw [hsf]
      rfl
  · refine ⟨?_, ?_, ?_⟩
    · intro h10
      simp only [get_candidates_for_opening_server]
      rw [if_neg hE]
      simp only [if_pos h10]
    · intro h10
      simp only [get_candidates_for_opening_server]
      rw [if_neg hE]
      simp only [if_neg (not_lt.mpr h10)]
    · simp only [get_candidates_for_opening_app]
      rw [if_neg hE]

/-- Witness for C9 at a concrete input: 11 candidates in stage "Offered", one
of them updated before the 7-day cutoff; the server variant drops it, the app
variant keeps all 11. -/
theorem C9_witness :
    get_candidates_for_opening_server (fun _ _ => none)
      (.ok (some (List.replicate 10 (⟨some "c", some "N", some "Offered", 1000⟩ : RawCandidate) ++
        [⟨some "old", some "O", some "Offered", 0⟩]))) 604810 (some "Offered") =
      .ok (List.replicate 10 (⟨some "c", some "N", some "Offered", 1000⟩ : RawCandidate)) ∧
    get_candidates_for_opening_app (fun _ _ => none)
      (.ok (some (List.replicate 10 (⟨some "c", some "N", some "Offered", 1000⟩ : RawCandidate) ++
        [⟨some "old", some "O", some "Offered", 0⟩]))) (some "Offered") =
      .ok (List.replicate 10 (⟨some "c", some "N", some "Offered", 1000⟩ : RawCandidate) ++
        [⟨some "old", some "O", some "Offered", 0⟩]) := by
  have h := C9_seven_day_filter (fun _ _ => none) 604810
    (List.replicate 10 (⟨some "c", some "N", some "Offered", 1000⟩ : RawCandidate) ++
      [⟨some "old", some "O", some "Offered", 0⟩]) (some "Offered")
  refine ⟨?_, ?_⟩
  · have h1 := h.1 (by decide)
    rw [h1]
    rfl
  · have h3 := h.2.2
    rw [h3]
    rfl

/-- C8 counterexample: an active opening whose markup-stripped text is nine
spaces followed by `x` (length 10) passes the length filter, but the stored
`job_description` is the *trimmed* text `"x"`, of length 1 < 10 — so the
fetcher does not discard every opening whose returned `job_description` is
shorter than 10 characters.  (`getText` is instantiated with the identity:
the markup stripper is an external collaborator, and a `<p>` body of nine
spaces and an `x` yields exactly this text.) -/
theorem C8_counterexample :
    shapeJobDescriptions id [⟨"1", "X", some "10", "         x"⟩] =
      [⟨"1", "X", "x", "         x"⟩] ∧
    ("x" : String).length < 10 ∧
    ("         x" : String).length = 10 :=
  ⟨by rfl, by decide, by decide⟩

/-- C8 amended: the job-description fetcher keeps exactly the openings whose
status is the active code `'10'` and whose markup-stripped text has length at
least 10 *before* trimming; the stored `job_description` is the trimmed text,
which can itself be shorter than 10 characters. -/
theorem C8_amended_jd_filter (getText : String → String)
    (raws : List RawOpening) :
    (∀ entry ∈ shapeJobDescriptions getText raws, ∃ o ∈ raws,
      o.status = some "10" ∧ 10 ≤ (getText o.content).length ∧
      entry = ⟨o.id, o.name, pyStrip (getText o.content), o.content⟩) ∧
    (∀ o ∈ raws, o.status = some "10" → 10 ≤ (getText o.content).length →
      (⟨o.id, o.name, pyStrip (getText o.content), o.content⟩ : JDEntry) ∈
        shapeJobDescriptions getText raws) := by
  constructor
  · intro entry hentry
    rw [shapeJobDescriptions, List.mem_filterMap] at hentry
    obtain ⟨o, ho, hf⟩ := hentry
    by_cases hstat : (o.status == some "10") = true
    · rw [if_pos hstat] at hf
      by_cases hlen : 10 ≤ (getText o.content).length
      · rw [if_pos hlen] at hf
        exact ⟨o, ho, by simpa using hstat, hlen, (Option.some_inj.mp hf).symm⟩
      · rw [if_neg hlen] at hf
        exact absurd hf (Option.some_ne_none _).symm
    · rw [if_neg hstat] at hf
      exact absurd hf (Option.some_ne_none _).symm
  · intro o ho hstat hlen
    rw [shapeJobDescriptions, List.mem_filterMap]
    refine ⟨o, ho, ?_⟩
    rw [if_pos (by simpa using hstat), if_pos hlen]

/-- Witness for the amended C8 at a concrete input: the active opening with
unstripped text of length 10 is kept, with the trimmed text stored. -/
theorem C8_amended_witness :
    (⟨"1", "X", "x", "         x"⟩ : JDEntry) ∈
      shapeJobDescriptions id [⟨"1", "X", some "10", "         x"⟩] := by
  have h := (C8_amended_jd_filter id [⟨"1", "X", some "10", "         x"⟩]).2
    ⟨"1", "X", some "10", "         x"⟩ (by simp) rfl (by decide)
  simpa [show pyStrip "         x" = "x" by decide] using h

/-- C10 counterexample: a parsed Account-API response that lacks a valid
`users` list (e.g. a JSON error payload) makes `get_users_info` return the
empty mapping *and store it in the cache*: the entry changes, and a
subsequent call within the TTL serves the cached empty mapping without
issuing the upstream request — even when that retry would have failed
anyway. -/
theorem C10_counterexample :
    get_users_info "acct" (.parsed none) 5 Cache.init true =
      ([], { Cache.init with users_info := ⟨some [], 5⟩ }, true) ∧
    ({ Cache.init with users_info := ⟨some [], 5⟩ } : Cache) ≠ Cache.init ∧
    get_users_info "acct" (.raised "net err") 10
        { Cache.init with users_info := ⟨some [], 5⟩ } true =
      ([], { Cache.init with users_info := ⟨some [], 5⟩ }, false) := by
  refine ⟨rfl, by decide, ?_⟩
  unfold get_users_info cacheHit
  rw [if_neg (show ¬("acct" : String) = "" by decide)]
  simp only [if_pos (show (10 : ℚ) - 5 < CACHE_TTL by norm_num [CACHE_TTL]), if_true]

/-- C10 amended: when the user-directory fetch *raises* (connection error,
HTTP error status, or a body that fails to parse), `get_users_info` returns
the empty mapping and leaves the cache entry unchanged, so a call within the
TTL retries; but a parsed response without a valid `users` list is treated as
a successful fetch of an empty directory — the empty mapping is stored with
the current timestamp and is served from the cache within the TTL. -/
theorem C10_amended_users_failure (e : Err) (now : ℚ) (cache : Cache)
    (acct : String) (fetch2 : UsersFetch) (hacct : acct ≠ "") :
    (cacheHit true cache.users_info now = none →
      get_users_info acct (.raised e) now cache true = ([], cache, true)) ∧
    (cacheHit true cache.users_info now = none →
      get_users_info acct (.parsed none) now cache true =
        ([], { cache with users_info := ⟨some [], now⟩ }, true)) ∧
    (∀ t1, t1 - now < CACHE_TTL →
      get_users_info acct fetch2 t1
          { cache with users_info := ⟨some [], now⟩ } true =
        ([], { cache with users_info := ⟨some [], now⟩ }, false)) := by
  refine ⟨?_, ?_, ?_⟩
  · intro h
    unfold get_users_info
    rw [if_neg hacct, h]
  · intro h
    unfold get_users_info
    rw [if_neg hacct, h]
    rfl
  · intro t1 h
    unfold get_users_info cacheHit
    rw [if_neg hacct]
    simp only [if_pos h, if_true]

/-- Witness for the amended C10 at concrete inputs: a raising failure on the
cold cache leaves it untouched; a users-less parsed body stores the empty
mapping at t = 5; a retry-with-failure at t = 7 is served from the cache. -/
theorem C10_amended_witness :
    get_users_info "acct" (.raised "boom") 5 Cache.init true =
      ([], Cache.init, true) ∧
    get_users_info "acct" (.parsed none) 5 Cache.init true =
      ([], { Cache.init with users_info := ⟨some [], 5⟩ }, true) ∧
    get_users_info "acct" (.raised "boom") 7
        { Cache.init with users_info := ⟨some [], 5⟩ } true =
      ([], { Cache.init with users_info := ⟨some [], 5⟩ }, false) := by
  have h := C10_amended_users_failure "boom" 5 Cache.init "acct" (.raised "boom")
    (by decide)
  exact ⟨h.1 rfl, h.2.1 rfl, h.2.2 7 (by norm_num [CACHE_TTL])⟩

end Ehiring
